import Mathlib

/-!
Verification of the PCI bus enumeration and driver-binding core of the
redox kernel (src/kernel/drivers/pci/init.rs).  The configuration-space
hardware, the register-constant tables (super::common) and the scheme
registry live outside the provided sources, so they are modelled from the
specification at its stated boundary; the scan and dispatch logic below is
a direct translation of `pci_init` and `pci_device`.
-/

namespace Pci

/-- Modelled from the spec (§4.1, §6): the configuration-space access
primitive.  The source's `PciConfig::read`/`write` (src/kernel/drivers/pci/
config.rs, not among the provided sources) perform raw 32-bit accesses
against hardware; we abstract the hardware as a state `σ` with a pure read
and a state-transforming write, indexed by (bus, slot, func, offset). -/
structure Machine (σ : Type) where
  read : σ → Nat → Nat → Nat → Nat → Nat
  write : σ → Nat → Nat → Nat → Nat → Nat → σ

/-- The (bus, slot, function) address triple held by the source's
`PciConfig` handle. -/
structure PciConfig where
  bus : Nat
  slot : Nat
  func : Nat
deriving DecidableEq, Repr

/-- Reads return a 32-bit register value (`PciConfig::read` has type u32). -/
def PciConfig.read {σ : Type} (m : Machine σ) (s : σ) (p : PciConfig) (off : Nat) : Nat :=
  m.read s p.bus p.slot p.func off % 2 ^ 32

def PciConfig.write {σ : Type} (m : Machine σ) (s : σ) (p : PciConfig) (off v : Nat) : σ :=
  m.write s p.bus p.slot p.func off v

/-- One configuration-space access, recorded in the scan's trace. -/
inductive Access where
  | rd (bus slot func off val : Nat)
  | wr (bus slot func off val : Nat)
deriving DecidableEq, Repr

def Access.off : Access → Nat
  | .rd _ _ _ o _ => o
  | .wr _ _ _ o _ => o

def Access.addr : Access → Nat × Nat × Nat
  | .rd b s f _ _ => (b, s, f)
  | .wr b s f _ _ => (b, s, f)

def Access.val : Access → Nat
  | .rd _ _ _ _ v => v
  | .wr _ _ _ _ v => v

def Access.isRd : Access → Bool
  | .rd _ _ _ _ _ => true
  | .wr _ _ _ _ _ => false

def Access.isWr : Access → Bool
  | .rd _ _ _ _ _ => false
  | .wr _ _ _ _ _ => true

/-- Modelled from the spec: the class/subclass/programming-interface and
vendor/device constants imported from `super::common` (not among the
provided sources).  Values are the standard PCI code points; the spec fixes
INTEL = 0x8086, GBE_82540EM = 0x100E and class 0x0C0330 = serial-bus / USB
/ XHCI explicitly (§8). -/
def MASS_STORAGE : Nat := 0x01

def SERIAL_BUS : Nat := 0x0C

def IDE : Nat := 0x01

def SATA : Nat := 0x06

def AHCI : Nat := 0x01

def USB : Nat := 0x03

def XHCI : Nat := 0x30

def EHCI : Nat := 0x20

def OHCI : Nat := 0x10

def UHCI : Nat := 0x00

def REALTEK : Nat := 0x10EC

def RTL8139 : Nat := 0x8139

def INTEL : Nat := 0x8086

def GBE_82540EM : Nat := 0x100E

def AC97_82801AA : Nat := 0x2415

def AC97_ICH4 : Nat := 0x24C5

def INTELHDA_ICH6 : Nat := 0x2668

/-- The driver object pushed onto the scheme registry, tagged by which
constructor produced it.  The XHCI and IntelHDA constructions are inline in
`pci_device` and carry the base/memory_mapped/irq fields computed there;
the other constructors are external collaborators and opaque. -/
inductive Scheme where
  | fileIde
  | fileAhci
  | xhci (base : Nat) (memory_mapped : Bool) (irq : Nat)
  | ehci
  | ohci
  | uhci
  | rtl8139
  | intel8254x
  | ac97
  | intelHda (base : Nat) (memory_mapped : Bool) (irq : Nat)
deriving DecidableEq, Repr

/-- Modelled from the spec (§1, §4.4): the external driver constructors are
collaborators specified only at their boundary.  `FileScheme::new` over the
disks discovered by `Ide::disks` / `Ahci::disks` may return None, in which
case nothing is pushed; we record only whether it succeeds. -/
structure Ext where
  fsIde : PciConfig → Bool
  fsAhci : PciConfig → Bool

/-- Direct translation of `pci_device` (src/kernel/drivers/pci/init.rs,
lines 31-98): the two-tier dispatch.  It returns the configuration-space
accesses it issues (the inline XHCI / IntelHDA constructions read BAR0 at
0x10 and the interrupt line at 0x3C) and the schemes it pushes. -/
def pci_device {σ : Type} (m : Machine σ) (s : σ) (ext : Ext) (pci : PciConfig)
    (class_id subclass_id interface_id vendor_code device_code : Nat) :
    List Access × List Scheme :=
  if class_id = MASS_STORAGE then
    if subclass_id = IDE then
      if ext.fsIde pci then ([], [Scheme.fileIde]) else ([], [])
    else if subclass_id = SATA ∧ interface_id = AHCI then
      if ext.fsAhci pci then ([], [Scheme.fileAhci]) else ([], [])
    else ([], [])
  else if class_id = SERIAL_BUS ∧ subclass_id = USB then
    if interface_id = XHCI then
      let base := PciConfig.read m s pci 0x10
      let r3c := PciConfig.read m s pci 0x3C
      ([Access.rd pci.bus pci.slot pci.func 0x10 base,
        Access.rd pci.bus pci.slot pci.func 0x3C r3c],
       [Scheme.xhci (base &&& 0xFFFFFFF0) (base &&& 1 == 0) (r3c % 2 ^ 8 &&& 0xF)])
    else if interface_id = EHCI then ([], [Scheme.ehci])
    else if interface_id = OHCI then ([], [Scheme.ohci])
    else if interface_id = UHCI then ([], [Scheme.uhci])
    else ([], [])
  else
    if vendor_code = REALTEK then
      if device_code = RTL8139 then ([], [Scheme.rtl8139]) else ([], [])
    else if vendor_code = INTEL then
      if device_code = GBE_82540EM then ([], [Scheme.intel8254x])
      else if device_code = AC97_82801AA ∨ device_code = AC97_ICH4 then ([], [Scheme.ac97])
      else if device_code = INTELHDA_ICH6 then
        let base := PciConfig.read m s pci 0x10
        let r3c := PciConfig.read m s pci 0x3C
        ([Access.rd pci.bus pci.slot pci.func 0x10 base,
          Access.rd pci.bus pci.slot pci.func 0x3C r3c],
         [Scheme.intelHda (base &&& 0xFFFFFFF0) (base &&& 1 == 0) (r3c % 2 ^ 8 &&& 0xF)])
      else ([], [])
    else ([], [])

/-- Direct translation of the per-BAR body of the probe loop in `pci_init`
(lines 118-131): read the BAR at offset i*4 + 0x10; if non-zero, write
all-ones, read back, compute the size (u32 arithmetic, so the sum wraps to
0 when the masked readback is 0), and unconditionally write the original
value back.  The computed size is only reported (debug output). -/
def probeBar {σ : Type} (m : Machine σ) (s : σ) (pci : PciConfig) (i : Nat) :
    σ × List Access × Option Nat :=
  let off := i * 4 + 0x10
  let bar := PciConfig.read m s pci off
  if bar > 0 then
    let s1 := PciConfig.write m s pci off 0xFFFFFFFF
    let rb := PciConfig.read m s1 pci off
    let size := (0xFFFFFFFF - (rb &&& 0xFFFFFFF0) + 1) % 2 ^ 32
    let s2 := PciConfig.write m s1 pci off bar
    (s2,
     [Access.rd pci.bus pci.slot pci.func off bar,
      Access.wr pci.bus pci.slot pci.func off 0xFFFFFFFF,
      Access.rd pci.bus pci.slot pci.func off rb,
      Access.wr pci.bus pci.slot pci.func off bar],
     some size)
  else
    (s, [Access.rd pci.bus pci.slot pci.func off bar], none)

/-- The probe loop `for i in 0..6`, threading the hardware state. -/
def probeBarsAux {σ : Type} (m : Machine σ) (pci : PciConfig) :
    σ → List Nat → σ × List Access
  | s, [] => (s, [])
  | s, i :: rest =>
    let p1 := probeBar m s pci i
    let p2 := probeBarsAux m pci p1.1 rest
    (p2.1, p1.2.1 ++ p2.2)

/-- Modelled from the spec (§3): a BoundDriver records the scheme together
with the originating ConfigAddress it owns. -/
structure BoundDriver where
  addr : PciConfig
  scheme : Scheme
deriving DecidableEq, Repr

def BoundDriver.key (d : BoundDriver) : Nat × Nat × Nat :=
  (d.addr.bus, d.addr.slot, d.addr.func)

/-- The body of the triple loop of `pci_init` (lines 105-142) for one
(bus, slot, func) address: read the identity register; if the low 16 bits
are not 0xFFFF, read the class register, run the BAR probe loop, and
dispatch with the extracted classification bytes. -/
def scanOne {σ : Type} (m : Machine σ) (ext : Ext) (s : σ) (b sl f : Nat) :
    σ × List Access × List BoundDriver :=
  let pci : PciConfig := ⟨b, sl, f⟩
  let id := PciConfig.read m s pci 0
  if id &&& 0xFFFF ≠ 0xFFFF then
    let class_id := PciConfig.read m s pci 8
    let pb := probeBarsAux m pci s (List.range 6)
    let dd := pci_device m pb.1 ext pci
        (class_id >>> 24 &&& 0xFF) (class_id >>> 16 &&& 0xFF) (class_id >>> 8 &&& 0xFF)
        (id &&& 0xFFFF) (id >>> 16 &&& 0xFFFF)
    (pb.1,
     Access.rd b sl f 0 id :: Access.rd b sl f 8 class_id :: (pb.2 ++ dd.1),
     dd.2.map fun sch => ⟨pci, sch⟩)
  else
    (s, [Access.rd b sl f 0 id], [])

/-- Runs `scanOne` over a list of addresses in order, threading the
hardware state, concatenating traces and appending registry entries. -/
def scanList {σ : Type} (m : Machine σ) (ext : Ext) :
    σ → List (Nat × Nat × Nat) → σ × List Access × List BoundDriver
  | s, [] => (s, [], [])
  | s, a :: rest =>
    let r1 := scanOne m ext s a.1 a.2.1 a.2.2
    let r2 := scanList m ext r1.1 rest
    (r2.1, r1.2.1 ++ r2.2.1, r1.2.2 ++ r2.2.2)

/-- The address enumeration of the triple loop: bus 0..256, slot 0..32,
function 0..8, in that nesting order. -/
def allAddrs : List (Nat × Nat × Nat) :=
  (List.range 256).flatMap fun b =>
    (List.range 32).flatMap fun sl =>
      (List.range 8).map fun f => (b, sl, f)

/-- Direct translation of `pci_init` (lines 101-146): the full scan. -/
def pci_init {σ : Type} (m : Machine σ) (ext : Ext) (s : σ) :
    σ × List Access × List BoundDriver :=
  scanList m ext s allAddrs

/-- The identity-register probes (reads at offset 0) of a trace, with the
address each was issued to. -/
def idProbes (t : List Access) : List (Nat × Nat × Nat) :=
  t.filterMap fun a => if a.isRd = true ∧ a.off = 0 then some a.addr else none

/-- The values written to a given register by a trace, in order. -/
def writesTo (t : List Access) (b sl f off : Nat) : List Nat :=
  t.filterMap fun a =>
    if a.isWr = true ∧ a.addr = (b, sl, f) ∧ a.off = off then some a.val else none

/-- The class-tier rules of `pci_device` that construct a driver. -/
def classHit (c si ii : Nat) : Bool :=
  (c == MASS_STORAGE && (si == IDE || (si == SATA && ii == AHCI))) ||
  (c == SERIAL_BUS && si == USB && (ii == XHCI || ii == EHCI || ii == OHCI || ii == UHCI))

/-- The vendor-tier rules of `pci_device` that construct a driver. -/
def vendorHit (v d : Nat) : Bool :=
  (v == REALTEK && d == RTL8139) ||
  (v == INTEL &&
    (d == GBE_82540EM || d == AC97_82801AA || d == AC97_ICH4 || d == INTELHDA_ICH6))

/-- The guard of the class tier of `pci_device`: the conditions under which
control enters one of the two class-keyed branches and the vendor match is
never reached. -/
def classGuard (c si : Nat) : Bool :=
  c == MASS_STORAGE || (c == SERIAL_BUS && si == USB)

/-- Strict lexicographic order on (bus, slot, func) triples. -/
def addrLt (a b : Nat × Nat × Nat) : Prop :=
  a.1 < b.1 ∨ (a.1 = b.1 ∧ (a.2.1 < b.2.1 ∨ (a.2.1 = b.2.1 ∧ a.2.2 < b.2.2)))

/-- A bus-less test machine whose reads depend only on the offset and whose
writes are ignored; used to instantiate theorems on concrete inputs. -/
def constM (g : Nat → Nat) : Machine Unit :=
  { read := fun _ _ _ _ off => g off
    write := fun s _ _ _ _ _ => s }

/-- Whether a trace contains a class-register read (offset 8): the mark of
a function the scanner treated as present and went on to classify. -/
def readsClassReg (t : List Access) : Bool :=
  t.any fun a => a.isRd && a.off == 8

/-- Modelled from the spec (§4.2, glossary): a single BAR register as the
sizing technique assumes hardware behaves — a set of writable size-mask
bits and read-only low flag bits.  Reading returns the stored writable bits
together with the flags; writing replaces the stored bits. -/
structure BarReg where
  mask : Nat
  flags : Nat
  stored : Nat

def BarReg.value (r : BarReg) : Nat :=
  r.stored &&& r.mask ||| r.flags

/-- The machine presented by a single BAR register (every offset aliases
the one register; the probe only ever touches one offset). -/
def barMachine : Machine BarReg :=
  { read := fun r _ _ _ _ => r.value
    write := fun r _ _ _ _ v => { r with stored := v } }

theorem and_or_mask_restore (mask flags st : Nat) (h : flags &&& mask = 0) :
    (st &&& mask ||| flags) &&& mask ||| flags = st &&& mask ||| flags := by
  apply Nat.eq_of_testBit_eq
  intro i
  have hb : (flags.testBit i && mask.testBit i) = false := by
    have h2 : (flags &&& mask).testBit i = false := by
      rw [h]
      exact Nat.zero_testBit i
    rwa [Nat.testBit_and] at h2
  simp only [Nat.testBit_or, Nat.testBit_and]
  cases hf : flags.testBit i <;> cases hm : mask.testBit i <;>
    cases hs : st.testBit i <;> simp_all

theorem size_wrap (msk : Nat) (h : msk ≤ 0xFFFFFFF0) :
    (0xFFFFFFFF - msk + 1) % 2 ^ 32 = if msk = 0 then 0 else 0xFFFFFFFF - msk + 1 := by
  rcases Nat.eq_zero_or_pos msk with h0 | h0
  · subst h0
    norm_num
  · rw [if_neg (Nat.pos_iff_ne_zero.mp h0)]
    apply Nat.mod_eq_of_lt
    omega

theorem idProbes_append (t1 t2 : List Access) :
    idProbes (t1 ++ t2) = idProbes t1 ++ idProbes t2 := by
  simp [idProbes, List.filterMap_append]

theorem idProbes_cons (a : Access) (t : List Access) :
    idProbes (a :: t) =
      (if a.isRd = true ∧ a.off = 0 then [a.addr] else []) ++ idProbes t := by
  by_cases h : a.isRd = true ∧ a.off = 0 <;> simp [idProbes, List.filterMap_cons, h]

theorem idProbes_probeBar {σ : Type} (m : Machine σ) (s : σ) (pci : PciConfig) (i : Nat) :
    idProbes (probeBar m s pci i).2.1 = [] := by
  have hoff : ¬(i * 4 + 0x10 = 0) := by omega
  by_cases h : PciConfig.read m s pci (i * 4 + 0x10) > 0 <;>
    simp [probeBar, h, idProbes, Access.isRd, Access.off, hoff]

theorem idProbes_probeBarsAux {σ : Type} (m : Machine σ) (pci : PciConfig) :
    ∀ (l : List Nat) (s : σ), idProbes (probeBarsAux m pci s l).2 = []
  | [], s => by simp [probeBarsAux, idProbes]
  | i :: rest, s => by
    simp [probeBarsAux, idProbes_append, idProbes_probeBar,
      idProbes_probeBarsAux m pci rest]

theorem idProbes_pci_device {σ : Type} (m : Machine σ) (s : σ) (ext : Ext)
    (pci : PciConfig) (c si ii vc dc : Nat) :
    idProbes (pci_device m s ext pci c si ii vc dc).1 = [] := by
  unfold pci_device
  split_ifs <;> simp [idProbes, Access.isRd, Access.off]

theorem idProbes_scanOne {σ : Type} (m : Machine σ) (ext : Ext) (s : σ) (b sl f : Nat) :
    idProbes (scanOne m ext s b sl f).2.1 = [(b, sl, f)] := by
  by_cases h : PciConfig.read m s ⟨b, sl, f⟩ 0 &&& 0xFFFF = 0xFFFF
  · simp [scanOne, h, idProbes, Access.isRd, Access.off, Access.addr]
  · simp only [scanOne]
    rw [if_pos h]
    rw [idProbes_cons, idProbes_cons, idProbes_append, idProbes_probeBarsAux,
      idProbes_pci_device]
    simp [Access.isRd, Access.off, Access.addr]

theorem idProbes_scanList {σ : Type} (m : Machine σ) (ext : Ext) :
    ∀ (l : List (Nat × Nat × Nat)) (s : σ), idProbes (scanList m ext s l).2.1 = l
  | [], s => by simp [scanList, idProbes]
  | (b, sl, f) :: rest, s => by
    simp [scanList, idProbes_append, idProbes_scanOne,
      idProbes_scanList m ext rest]

theorem allAddrs_length : allAddrs.length = 65536 := by
  have inner : ∀ b : Nat,
      (((List.range 32).flatMap fun sl =>
        (List.range 8).map fun f => (b, sl, f)) : List (Nat × Nat × Nat)).length = 256 := by
    intro b
    rw [List.length_flatMap]
    rw [List.map_congr_left (fun a _ => by simp : ∀ a ∈ List.range 32,
      (List.length ∘ fun sl => (List.range 8).map fun f => (b, sl, f)) a = 8)]
    rw [List.map_const', List.sum_replicate, List.length_range, smul_eq_mul]
  rw [allAddrs, List.length_flatMap]
  rw [List.map_congr_left (fun a _ => by
    simpa using inner a : ∀ a ∈ List.range 256,
    (List.length ∘ fun b => (List.range 32).flatMap fun sl =>
      (List.range 8).map fun f => (b, sl, f)) a = 256)]
  rw [List.map_const', List.sum_replicate, List.length_range, smul_eq_mul]

theorem allAddrs_pairwise : List.Pairwise addrLt allAddrs := by
  rw [allAddrs, List.pairwise_flatMap]
  constructor
  · intro b _
    rw [List.pairwise_flatMap]
    constructor
    · intro sl _
      rw [List.pairwise_map]
      exact (List.pairwise_lt_range 8).imp fun h =>
        Or.inr ⟨rfl, Or.inr ⟨rfl, h⟩⟩
    · refine (List.pairwise_lt_range 32).imp ?_
      intro sl1 sl2 h x hx y hy
      simp only [List.mem_map] at hx hy
      obtain ⟨f1, _, rfl⟩ := hx
      obtain ⟨f2, _, rfl⟩ := hy
      exact Or.inr ⟨rfl, Or.inl h⟩
  · refine (List.pairwise_lt_range 256).imp ?_
    intro b1 b2 h x hx y hy
    simp only [List.mem_flatMap, List.mem_map] at hx hy
    obtain ⟨sl1, _, f1, _, rfl⟩ := hx
    obtain ⟨sl2, _, f2, _, rfl⟩ := hy
    exact Or.inl h

theorem allAddrs_nodup : allAddrs.Nodup := by
  refine allAddrs_pairwise.imp ?_
  intro a b h
  intro hab
  subst hab
  rcases h with h | ⟨_, h | ⟨_, h⟩⟩ <;> exact absurd h (Nat.lt_irrefl _)

theorem pci_device_length {σ : Type} (m : Machine σ) (s : σ) (ext : Ext)
    (pci : PciConfig) (c si ii vc dc : Nat) :
    (pci_device m s ext pci c si ii vc dc).2.length ≤ 1 := by
  unfold pci_device
  split_ifs <;> simp

theorem pci_device_nohit {σ : Type} (m : Machine σ) (s : σ) (ext : Ext)
    (pci : PciConfig) (c si ii vc dc : Nat)
    (h1 : classHit c si ii = false) (h2 : vendorHit vc dc = false) :
    (pci_device m s ext pci c si ii vc dc).2 = [] := by
  unfold pci_device
  split_ifs <;> first
    | rfl
    | (exfalso; simp_all [classHit, vendorHit])

theorem scanOne_regs_key {σ : Type} (m : Machine σ) (ext : Ext) (s : σ) (b sl f : Nat) :
    ∀ e ∈ (scanOne m ext s b sl f).2.2, e.key = (b, sl, f) := by
  intro e he
  by_cases h : PciConfig.read m s ⟨b, sl, f⟩ 0 &&& 0xFFFF = 0xFFFF
  · simp [scanOne, h] at he
  · simp only [scanOne, h, if_neg, ne_eq, not_false_iff, if_true, List.mem_map] at he
    obtain ⟨sch, _, rfl⟩ := he
    rfl

theorem scanOne_regs_length {σ : Type} (m : Machine σ) (ext : Ext) (s : σ) (b sl f : Nat) :
    (scanOne m ext s b sl f).2.2.length ≤ 1 := by
  by_cases h : PciConfig.read m s ⟨b, sl, f⟩ 0 &&& 0xFFFF = 0xFFFF <;>
    simp [scanOne, h, pci_device_length]

theorem pairwise_of_length_le_one {α : Type} {R : α → α → Prop} :
    ∀ l : List α, l.length ≤ 1 → List.Pairwise R l
  | [], _ => List.Pairwise.nil
  | [x], _ => List.pairwise_singleton R x
  | _ :: _ :: _, h => by simp at h

theorem scanList_regs_key_mem {σ : Type} (m : Machine σ) (ext : Ext) :
    ∀ (l : List (Nat × Nat × Nat)) (s : σ) (e : BoundDriver),
      e ∈ (scanList m ext s l).2.2 → e.key ∈ l
  | [], s, e => by simp [scanList]
  | (b, sl, f) :: rest, s, e => by
    simp only [scanList, List.mem_append, List.mem_cons]
    rintro (h | h)
    · exact Or.inl (scanOne_regs_key m ext s b sl f e h)
    · exact Or.inr (scanList_regs_key_mem m ext rest _ e h)

theorem scanList_regs_pairwise {σ : Type} (m : Machine σ) (ext : Ext) :
    ∀ (l : List (Nat × Nat × Nat)) (s : σ), List.Pairwise addrLt l →
      List.Pairwise (fun d1 d2 : BoundDriver => addrLt d1.key d2.key)
        (scanList m ext s l).2.2
  | [], s, _ => by simp [scanList]
  | (b, sl, f) :: rest, s, hp => by
    rw [List.pairwise_cons] at hp
    simp only [scanList]
    rw [List.pairwise_append]
    refine ⟨pairwise_of_length_le_one _ (scanOne_regs_length m ext s b sl f),
      scanList_regs_pairwise m ext rest _ hp.2, ?_⟩
    intro d1 h1 d2 h2
    rw [scanOne_regs_key m ext s b sl f d1 h1]
    exact hp.1 _ (scanList_regs_key_mem m ext rest _ d2 h2)

theorem scanList_append {σ : Type} (m : Machine σ) (ext : Ext) :
    ∀ (l1 l2 : List (Nat × Nat × Nat)) (s : σ),
      scanList m ext s (l1 ++ l2) =
        ((scanList m ext (scanList m ext s l1).1 l2).1,
         (scanList m ext s l1).2.1 ++ (scanList m ext (scanList m ext s l1).1 l2).2.1,
         (scanList m ext s l1).2.2 ++ (scanList m ext (scanList m ext s l1).1 l2).2.2)
  | [], l2, s => by simp [scanList]
  | a :: rest, l2, s => by
    simp [scanList, scanList_append m ext rest l2, List.append_assoc]

/-- Claim C1: for every BAR index and every original BAR value v read at offset
0x10 + 4*index, if v = 0 the probe leaves the hardware state untouched and issues
no write to that BAR; if v ≠ 0 the writes issued to that BAR are exactly the
all-ones write followed unconditionally by the write of v back, for any outcome
of the size computation; consequently, on the BAR-register hardware model, the
register reads exactly v after the probe completes. -/
theorem barProbe_restores {σ : Type} (m : Machine σ) (s : σ) (pci : PciConfig) (i : Nat) :
    (PciConfig.read m s pci (i * 4 + 0x10) = 0 →
      (probeBar m s pci i).1 = s ∧
      writesTo (probeBar m s pci i).2.1 pci.bus pci.slot pci.func (i * 4 + 0x10) = []) ∧
    (PciConfig.read m s pci (i * 4 + 0x10) ≠ 0 →
      writesTo (probeBar m s pci i).2.1 pci.bus pci.slot pci.func (i * 4 + 0x10) =
        [0xFFFFFFFF, PciConfig.read m s pci (i * 4 + 0x10)]) ∧
    (∀ r : BarReg, r.mask < 2 ^ 32 → r.flags < 2 ^ 32 → r.flags &&& r.mask = 0 →
      BarReg.value (probeBar barMachine r pci i).1 = BarReg.value r) := by
  refine ⟨?_, ?_, ?_⟩
  · intro h
    simp [probeBar, h, writesTo, Access.isWr]
  · intro h
    have hpos : PciConfig.read m s pci (i * 4 + 0x10) > 0 := Nat.pos_of_ne_zero h
    simp [probeBar, hpos, writesTo, Access.isWr, Access.addr, Access.off, Access.val]
  · intro r hm hf h0
    have hvlt : BarReg.value r < 2 ^ 32 :=
      Nat.or_lt_two_pow (lt_of_le_of_lt Nat.and_le_right hm) hf
    have hv : PciConfig.read barMachine r pci (i * 4 + 0x10) = BarReg.value r :=
      Nat.mod_eq_of_lt hvlt
    by_cases hz : BarReg.value r = 0
    · have hnpos : ¬ PciConfig.read barMachine r pci (i * 4 + 0x10) > 0 := by
        rw [hv, hz]
        omega
      simp only [probeBar]
      rw [if_neg hnpos]
    · have hpos : PciConfig.read barMachine r pci (i * 4 + 0x10) > 0 := by
        rw [hv]
        exact Nat.pos_of_ne_zero hz
      calc BarReg.value (probeBar barMachine r pci i).1
          = BarReg.value ⟨r.mask, r.flags,
              PciConfig.read barMachine r pci (i * 4 + 0x10)⟩ := by
            simp only [probeBar]
            rw [if_pos hpos]
            rfl
        _ = BarReg.value ⟨r.mask, r.flags, BarReg.value r⟩ := by rw [hv]
        _ = BarReg.value r := and_or_mask_restore r.mask r.flags r.stored h0

theorem barProbe_restores_witness :
    writesTo (probeBar barMachine ⟨0xFFFFF000, 0x4, 0xFE000000⟩ ⟨0, 1, 2⟩ 0).2.1
        0 1 2 0x10 = [0xFFFFFFFF, 0xFE000004] ∧
    BarReg.value (probeBar barMachine ⟨0xFFFFF000, 0x4, 0xFE000000⟩ ⟨0, 1, 2⟩ 0).1 =
      0xFE000004 := by
  have h := barProbe_restores barMachine ⟨0xFFFFF000, 0x4, 0xFE000000⟩ ⟨0, 1, 2⟩ 0
  constructor
  · have h2 := h.2.1 (by decide)
    simpa [PciConfig.read, barMachine, BarReg.value] using h2
  · have h3 := h.2.2 ⟨0xFFFFF000, 0x4, 0xFE000000⟩ (by norm_num) (by norm_num) (by decide)
    simpa [BarReg.value] using h3

/-- Claim C3: when the original BAR value v is non-zero, the probe reports
size = (0xFFFFFFFF − m) + 1 where m is the readback after the all-ones write
masked with 0xFFFFFFF0; the arithmetic is 32-bit, so the sum wraps to 0 exactly
when m = 0 (reported as a zero size, not an error); when v = 0 no size is
reported. -/
theorem barProbe_size {σ : Type} (m : Machine σ) (s : σ) (pci : PciConfig) (i : Nat) :
    (PciConfig.read m s pci (i * 4 + 0x10) = 0 → (probeBar m s pci i).2.2 = none) ∧
    (PciConfig.read m s pci (i * 4 + 0x10) ≠ 0 →
      (probeBar m s pci i).2.2 =
        some (if PciConfig.read m (PciConfig.write m s pci (i * 4 + 0x10) 0xFFFFFFFF) pci
                  (i * 4 + 0x10) &&& 0xFFFFFFF0 = 0
              then 0
              else 0xFFFFFFFF -
                  (PciConfig.read m (PciConfig.write m s pci (i * 4 + 0x10) 0xFFFFFFFF) pci
                    (i * 4 + 0x10) &&& 0xFFFFFFF0) + 1)) := by
  constructor
  · intro h
    simp [probeBar, h]
  · intro h
    have hpos : PciConfig.read m s pci (i * 4 + 0x10) > 0 := Nat.pos_of_ne_zero h
    simp only [probeBar]
    rw [if_pos hpos]
    rw [size_wrap _ Nat.and_le_right]

theorem barProbe_size_witness :
    (probeBar (constM fun off => if off = 0x10 then 0xFFFFF004 else 0) () ⟨0, 0, 0⟩ 0).2.2 =
      some 0x1000 := by
  have h := (barProbe_size (constM fun off => if off = 0x10 then 0xFFFFF004 else 0)
      () ⟨0, 0, 0⟩ 0).2 (by decide)
  rw [h]
  decide

/-- Claim C4: a function whose identity register reads with low 16 bits equal to
0xFFFF gets exactly one configuration-space access (the identity read): no class
read, no BAR access, no dispatch, no registry entry, and the hardware state is
untouched. -/
theorem absent_function_single_access {σ : Type} (m : Machine σ) (ext : Ext) (s : σ)
    (b sl f : Nat) (h : PciConfig.read m s ⟨b, sl, f⟩ 0 &&& 0xFFFF = 0xFFFF) :
    (scanOne m ext s b sl f).2.1 = [Access.rd b sl f 0 (PciConfig.read m s ⟨b, sl, f⟩ 0)] ∧
    (scanOne m ext s b sl f).2.2 = [] ∧ (scanOne m ext s b sl f).1 = s := by
  refine ⟨?_, ?_, ?_⟩ <;> simp [scanOne, h]

theorem absent_function_single_access_witness :
    (scanOne (constM fun _ => 0xFFFFFFFF) ⟨fun _ => true, fun _ => true⟩ () 3 4 5).2.1 =
        [Access.rd 3 4 5 0 0xFFFFFFFF] ∧
    (scanOne (constM fun _ => 0xFFFFFFFF) ⟨fun _ => true, fun _ => true⟩ () 3 4 5).2.2 = [] ∧
    (scanOne (constM fun _ => 0xFFFFFFFF) ⟨fun _ => true, fun _ => true⟩ () 3 4 5).1 = () := by
  have h := absent_function_single_access (constM fun _ => 0xFFFFFFFF)
      ⟨fun _ => true, fun _ => true⟩ () 3 4 5 (by decide)
  simpa [PciConfig.read, constM] using h

/-- Claim C9: the scan always terminates after visiting exactly
256 × 32 × 8 = 65536 addresses: for every hardware contents the identity-register
probes of the trace are exactly the canonical address enumeration, one probe per
address, in order and without repetition. -/
theorem scan_termination {σ : Type} (m : Machine σ) (ext : Ext) (s : σ) :
    idProbes (pci_init m ext s).2.1 = allAddrs ∧
    allAddrs.length = 65536 ∧ allAddrs.Nodup :=
  ⟨idProbes_scanList m ext allAddrs s, allAddrs_length, allAddrs_nodup⟩

/-- Claim C6: the registry is append-only (processing a prefix of the address
list contributes a prefix of the final registry), its entries carry the
producing address in strictly ascending (bus, slot, function) lexicographic
order, and a second run over identical configuration-space contents produces the
identical registry. -/
theorem registry_ordered {σ : Type} (m : Machine σ) (ext : Ext) (s : σ) :
    List.Pairwise (fun d1 d2 : BoundDriver => addrLt d1.key d2.key)
      (pci_init m ext s).2.2 ∧
    (∀ l1 l2 : List (Nat × Nat × Nat),
      (scanList m ext s (l1 ++ l2)).2.2 =
        (scanList m ext s l1).2.2 ++ (scanList m ext (scanList m ext s l1).1 l2).2.2) ∧
    (∀ (m2 : Machine σ) (ext2 : Ext) (s2 : σ), m2 = m → ext2 = ext → s2 = s →
      (pci_init m2 ext2 s2).2.2 = (pci_init m ext s).2.2) := by
  refine ⟨scanList_regs_pairwise m ext allAddrs s allAddrs_pairwise, ?_, ?_⟩
  · intro l1 l2
    rw [scanList_append m ext l1 l2 s]
  · intro m2 ext2 s2 h1 h2 h3
    rw [h1, h2, h3]

theorem registry_ordered_witness :
    List.Pairwise (fun d1 d2 : BoundDriver => addrLt d1.key d2.key)
      (pci_init (constM fun _ => 0xFFFFFFFF) ⟨fun _ => true, fun _ => true⟩ ()).2.2 ∧
    (pci_init (constM fun _ => 0xFFFFFFFF) ⟨fun _ => true, fun _ => true⟩ ()).2.2 =
      (pci_init (constM fun _ => 0xFFFFFFFF) ⟨fun _ => true, fun _ => true⟩ ()).2.2 := by
  have h := registry_ordered (constM fun _ => 0xFFFFFFFF) ⟨fun _ => true, fun _ => true⟩ ()
  exact ⟨h.1, h.2.2 _ _ _ rfl rfl rfl⟩

/-- Claim C5: no configuration-space contents escalates to an abort: for every
hardware model the scan is total and still probes all 65536 addresses, and a
device matching no class-tier rule and no vendor-tier rule contributes no
registry entry while the scan goes on. -/
theorem scan_resilient {σ : Type} (m : Machine σ) (ext : Ext) (s : σ)
    (pci : PciConfig) (c si ii vc dc : Nat)
    (h1 : classHit c si ii = false) (h2 : vendorHit vc dc = false) :
    idProbes (pci_init m ext s).2.1 = allAddrs ∧
    (pci_device m s ext pci c si ii vc dc).2 = [] :=
  ⟨idProbes_scanList m ext allAddrs s, pci_device_nohit m s ext pci c si ii vc dc h1 h2⟩

theorem scan_resilient_witness :
    idProbes (pci_init (constM fun _ => 0xFFFFFFFF) ⟨fun _ => true, fun _ => true⟩ ()).2.1 =
        allAddrs ∧
    (pci_device (constM fun _ => 0xFFFFFFFF) () ⟨fun _ => true, fun _ => true⟩ ⟨0, 0, 0⟩
        0xFF 0 0 0 0).2 = [] :=
  scan_resilient (constM fun _ => 0xFFFFFFFF) ⟨fun _ => true, fun _ => true⟩ ()
    ⟨0, 0, 0⟩ 0xFF 0 0 0 0 (by decide) (by decide)

/-- Claim C7: one dispatch invocation appends at most one registry entry (so a
present device yields at most one BoundDriver), a device matching no rule in
either tier appends none, and the scan then continues with the remaining
functions unchanged. -/
theorem dispatch_at_most_one {σ : Type} (m : Machine σ) (s : σ) (ext : Ext)
    (pci : PciConfig) (c si ii vc dc b sl f : Nat)
    (h1 : classHit c si ii = false) (h2 : vendorHit vc dc = false) :
    (pci_device m s ext pci c si ii vc dc).2.length ≤ 1 ∧
    (pci_device m s ext pci c si ii vc dc).2 = [] ∧
    (scanOne m ext s b sl f).2.2.length ≤ 1 ∧
    (∀ rest : List (Nat × Nat × Nat),
      (scanList m ext s ((b, sl, f) :: rest)).2.2 =
        (scanOne m ext s b sl f).2.2 ++
          (scanList m ext (scanOne m ext s b sl f).1 rest).2.2) :=
  ⟨pci_device_length m s ext pci c si ii vc dc,
   pci_device_nohit m s ext pci c si ii vc dc h1 h2,
   scanOne_regs_length m ext s b sl f,
   fun _ => rfl⟩

theorem dispatch_at_most_one_witness :
    (pci_device (constM fun _ => 7) () ⟨fun _ => true, fun _ => true⟩ ⟨0, 0, 0⟩
        0x05 0 0 0x1234 0x5678).2.length ≤ 1 ∧
    (pci_device (constM fun _ => 7) () ⟨fun _ => true, fun _ => true⟩ ⟨0, 0, 0⟩
        0x05 0 0 0x1234 0x5678).2 = [] ∧
    (scanOne (constM fun _ => 7) ⟨fun _ => true, fun _ => true⟩ () 1 2 3).2.2.length ≤ 1 := by
  have h := dispatch_at_most_one (constM fun _ => 7) () ⟨fun _ => true, fun _ => true⟩
      ⟨0, 0, 0⟩ 0x05 0 0 0x1234 0x5678 1 2 3 (by decide) (by decide)
  exact ⟨h.1, h.2.1, h.2.2.1⟩

/-- Claim C2 counterexample: a device with class = mass-storage and subclass 0
(so no class-tier rule matches) and vendor/device = Realtek RTL8139 (a
vendor-tier rule matches) binds no driver at all — the dispatcher never reaches
the vendor/device lookup, refuting the claim that a device whose class tier
yields no match still gets a vendor/device lookup. -/
theorem class_tier_no_fallthrough_cex :
    classHit 0x01 0x00 0x00 = false ∧ vendorHit 0x10EC 0x8139 = true ∧
    (pci_device (constM fun _ => 0) () ⟨fun _ => true, fun _ => true⟩ ⟨0, 0, 0⟩
        0x01 0x00 0x00 0x10EC 0x8139).2 = [] :=
  ⟨by decide, by decide, by decide⟩

/-- Claim C2 (amended): dispatch is two-tier with a guard: when the class guard
holds (class = mass-storage, or class = serial-bus with subclass = USB) the
outcome is decided by the class tier alone and the vendor/device pair is
ignored — in particular when both a class rule and a vendor rule match, the
class-tier constructor wins; the vendor/device tier is consulted if and only if
the class guard fails, so a guarded device whose subtype matches no class rule
gets no vendor lookup and no driver, while a device outside the guard gets the
vendor/device lookup regardless of its class bytes. -/
theorem dispatch_precedence_amended {σ : Type} (m : Machine σ) (s : σ) (ext : Ext)
    (pci : PciConfig) (c si ii vc dc : Nat) :
    (classGuard c si = true →
      ∀ vc2 dc2, pci_device m s ext pci c si ii vc dc =
        pci_device m s ext pci c si ii vc2 dc2) ∧
    (classGuard c si = false → ∀ c2 si2 ii2, classGuard c2 si2 = false →
      pci_device m s ext pci c si ii vc dc =
        pci_device m s ext pci c2 si2 ii2 vc dc) ∧
    (c = SERIAL_BUS → si = USB → ii = XHCI → vendorHit vc dc = true →
      (pci_device m s ext pci c si ii vc dc).2 =
        [Scheme.xhci (PciConfig.read m s pci 0x10 &&& 0xFFFFFFF0)
          (PciConfig.read m s pci 0x10 &&& 1 == 0)
          (PciConfig.read m s pci 0x3C % 2 ^ 8 &&& 0xF)]) := by
  have split1 : ∀ (c3 si3 : Nat), classGuard c3 si3 = false →
      ¬ c3 = MASS_STORAGE ∧ ¬ (c3 = SERIAL_BUS ∧ si3 = USB) := by
    intro c3 si3 h
    constructor
    · intro hc
      subst hc
      simp [classGuard] at h
    · rintro ⟨hc, hsi⟩
      subst hc
      subst hsi
      simp [classGuard] at h
  refine ⟨?_, ?_, ?_⟩
  · intro hg vc2 dc2
    simp only [classGuard, Bool.or_eq_true, Bool.and_eq_true, beq_iff_eq] at hg
    rcases hg with hg | ⟨hg1, hg2⟩
    · simp [pci_device, hg]
    · simp [pci_device, hg1, hg2, SERIAL_BUS, MASS_STORAGE, USB]
  · intro hg c2 si2 ii2 hg2
    obtain ⟨hA, hB⟩ := split1 c si hg
    obtain ⟨hA2, hB2⟩ := split1 c2 si2 hg2
    simp [pci_device, hA, hB, hA2, hB2]
  · intro h1 h2 h3 _
    subst h1
    subst h2
    subst h3
    simp [pci_device, SERIAL_BUS, MASS_STORAGE, USB, XHCI]

theorem dispatch_precedence_amended_witness :
    (pci_device (constM fun off => if off = 0x10 then 0xFE000004 else 0xAB) ()
        ⟨fun _ => true, fun _ => true⟩ ⟨0, 2, 0⟩ 0x0C 0x03 0x30 0x10EC 0x8139).2 =
      [Scheme.xhci 0xFE000000 true 0xB] := by
  have h := (dispatch_precedence_amended
      (constM fun off => if off = 0x10 then 0xFE000004 else 0xAB) ()
      ⟨fun _ => true, fun _ => true⟩ ⟨0, 2, 0⟩ 0x0C 0x03 0x30 0x10EC 0x8139).2.2
      rfl rfl rfl (by decide)
  rw [h]
  decide

/-- Claim C8: a device classified serial-bus / USB / XHCI yields exactly the
XHCI driver whose base is BAR0 with the low 4 flag bits cleared, whose
memory_mapped flag is set exactly when BAR0's low bit is 0, and whose IRQ is
the low nibble of the interrupt-line byte read at 0x3C; concretely BAR0 =
0xFE000004 gives base 0xFE000000 and memory_mapped = true. -/
theorem xhci_driver_fields {σ : Type} (m : Machine σ) (s : σ) (ext : Ext)
    (pci : PciConfig) (vc dc : Nat) :
    (pci_device m s ext pci SERIAL_BUS USB XHCI vc dc).2 =
      [Scheme.xhci (PciConfig.read m s pci 0x10 &&& 0xFFFFFFF0)
        (PciConfig.read m s pci 0x10 &&& 1 == 0)
        (PciConfig.read m s pci 0x3C % 2 ^ 8 &&& 0xF)] ∧
    ((PciConfig.read m s pci 0x10 &&& 1 == 0) = true ↔
      PciConfig.read m s pci 0x10 % 2 = 0) ∧
    PciConfig.read m s pci 0x3C % 2 ^ 8 &&& 0xF =
      PciConfig.read m s pci 0x3C % 2 ^ 8 % 2 ^ 4 ∧
    (pci_device (constM fun off => if off = 0x10 then 0xFE000004 else 0x4B) ()
        ⟨fun _ => true, fun _ => true⟩ ⟨0, 2, 0⟩ SERIAL_BUS USB XHCI 0 0).2 =
      [Scheme.xhci 0xFE000000 true 0xB] := by
  refine ⟨?_, ?_, ?_, by decide⟩
  · simp [pci_device, SERIAL_BUS, MASS_STORAGE, USB, XHCI]
  · have h : PciConfig.read m s pci 0x10 &&& 1 = PciConfig.read m s pci 0x10 % 2 := by
      simp
    rw [h]
    simp
  · have h2 := Nat.and_pow_two_sub_one_eq_mod (PciConfig.read m s pci 0x3C % 2 ^ 8) 4
    simpa using h2

/-- Claim C10: presence is decided solely by the low 16 bits of the identity
register: the scanner goes on to read the class register exactly when those
bits differ from 0xFFFF, the tested value equals the identity register modulo
2^16 (the device-code high bits are ignored), and a function reading vendor
0x0001 with device code 0xFFFF (identity 0xFFFF0001) is still scanned. -/
theorem presence_low16_only {σ : Type} (m : Machine σ) (ext : Ext) (s : σ) (b sl f : Nat) :
    readsClassReg (scanOne m ext s b sl f).2.1 =
      ((PciConfig.read m s ⟨b, sl, f⟩ 0 &&& 0xFFFF) != 0xFFFF) ∧
    PciConfig.read m s ⟨b, sl, f⟩ 0 &&& 0xFFFF =
      PciConfig.read m s ⟨b, sl, f⟩ 0 % 2 ^ 16 ∧
    readsClassReg (scanOne (constM fun _ => 0xFFFF0001)
        ⟨fun _ => true, fun _ => true⟩ () b sl f).2.1 = true := by
  refine ⟨?_, ?_, ?_⟩
  · by_cases h : PciConfig.read m s ⟨b, sl, f⟩ 0 &&& 0xFFFF = 0xFFFF
    · simp [scanOne, h, readsClassReg, Access.isRd, Access.off]
    · simp only [scanOne]
      rw [if_pos h]
      simp [readsClassReg, Access.isRd, Access.off, bne_iff_ne, h]
  · have h2 := Nat.and_pow_two_sub_one_eq_mod (PciConfig.read m s ⟨b, sl, f⟩ 0) 16
    simpa using h2
  · have h : PciConfig.read (constM fun _ => 0xFFFF0001) () ⟨b, sl, f⟩ 0 &&& 0xFFFF
        ≠ 0xFFFF := by
      simp only [PciConfig.read, constM]
      decide
    simp only [scanOne]
    rw [if_pos h]
    simp [readsClassReg, Access.isRd, Access.off]

end Pci
